import Mathlib

/-!
Verification of the audio engine of the synqing/rewrite firmware.

The definitions below are shallow embeddings of the audio-pipeline code:
machine floats are modelled as rationals, machine integers as naturals or
integers with explicit wrap-around where the width matters, and each
stateful routine becomes an explicit state-passing function.  Sources are
cited next to each definition.
-/

namespace SensoryBridge

/-! ### AGC controller

Embedding of the AGC block of calculate_vu (src/src/i2s_audio.h, lines
373-393).  Per cycle the controller sees the frame RMS (an input here),
updates the rolling RMS average, derives a clamped desired gain and slews
AGC_GAIN toward it.  When AGC is disabled the gain is pinned at 1.0 and
the rolling RMS is left untouched. -/

/-- ROLL_ALPHA = 0.01f (i2s_audio.h line 378). -/
def ROLL_ALPHA : ℚ := 1/100

/-- TARGET_RMS = 0.20f (i2s_audio.h line 383). -/
def TARGET_RMS : ℚ := 1/5

/-- Lower gain clamp, 0.5f (i2s_audio.h line 385). -/
def AGC_GAIN_MIN : ℚ := 1/2

/-- Upper gain clamp, 8.0f (i2s_audio.h line 386). -/
def AGC_GAIN_MAX : ℚ := 8

/-- Per-cycle slew limit, 0.05f (i2s_audio.h lines 389-392). -/
def AGC_SLEW_LIMIT : ℚ := 1/20

/-- The mutable AGC state: AGC_GAIN (globals.h line 494) and the
function-static rolling_rms (i2s_audio.h line 377). -/
structure AgcState where
  gain : ℚ
  rolling_rms : ℚ
  deriving Repr, DecidableEq

/-- Startup values: AGC_GAIN = 1.0f, rolling_rms = 0.05f. -/
def agc_init : AgcState := ⟨1, 1/20⟩

/-- The new rolling RMS average (i2s_audio.h line 380). -/
def agc_rolling_next (s : AgcState) (rms : ℚ) : ℚ :=
  s.rolling_rms * (1 - ROLL_ALPHA) + rms * ROLL_ALPHA

/-- Lower clamp on desired_gain (i2s_audio.h line 385). -/
def agc_clamp_low (x : ℚ) : ℚ := if x < AGC_GAIN_MIN then AGC_GAIN_MIN else x

/-- Upper clamp on desired_gain (i2s_audio.h line 386). -/
def agc_clamp_high (x : ℚ) : ℚ := if x > AGC_GAIN_MAX then AGC_GAIN_MAX else x

/-- desired_gain after both clamps (i2s_audio.h lines 384-386). -/
def agc_desired (rolling : ℚ) : ℚ :=
  agc_clamp_high (agc_clamp_low (TARGET_RMS / rolling))

/-- The slew-limited move of AGC_GAIN toward desired_gain
(i2s_audio.h lines 389-392). -/
def agc_slew (gain desired : ℚ) : ℚ :=
  if desired > gain then gain + min (desired - gain) AGC_SLEW_LIMIT
  else gain - min (gain - desired) AGC_SLEW_LIMIT

/-- One cycle of the AGC block of calculate_vu.  `enabled` is AGC_ENABLED,
`rms` the value of the local rms variable for this cycle. -/
def agc_step (s : AgcState) (enabled : Bool) (rms : ℚ) : AgcState :=
  if enabled then
    let rolling := agc_rolling_next s rms
    ⟨agc_slew s.gain (agc_desired rolling), rolling⟩
  else
    { s with gain := 1 }

/-- Run the AGC over a sequence of cycles; each input is the pair
(AGC_ENABLED, rms) for that cycle. -/
def agc_run (inputs : List (Bool × ℚ)) : AgcState :=
  inputs.foldl (fun s p => agc_step s p.1 p.2) agc_init

theorem agc_slew_limit_nonneg : (0:ℚ) ≤ AGC_SLEW_LIMIT := by
  unfold AGC_SLEW_LIMIT; norm_num

theorem agc_desired_bounds (rolling : ℚ) :
    AGC_GAIN_MIN ≤ agc_desired rolling ∧ agc_desired rolling ≤ AGC_GAIN_MAX := by
  unfold agc_desired agc_clamp_high agc_clamp_low AGC_GAIN_MIN AGC_GAIN_MAX
  split_ifs with h1 h2 h3
  · constructor <;> norm_num
  · constructor <;> norm_num
  · constructor <;> norm_num
  · exact ⟨not_lt.mp h1, not_lt.mp h3⟩

theorem agc_slew_between (gain desired : ℚ) :
    min gain desired ≤ agc_slew gain desired ∧
      agc_slew gain desired ≤ max gain desired := by
  unfold agc_slew
  split_ifs with hd
  · constructor
    · have h0 : (0:ℚ) ≤ min (desired - gain) AGC_SLEW_LIMIT :=
        le_min (by linarith) agc_slew_limit_nonneg
      have h1 : min gain desired ≤ gain := min_le_left _ _
      linarith
    · have h0 : min (desired - gain) AGC_SLEW_LIMIT ≤ desired - gain :=
        min_le_left _ _
      have h1 : desired ≤ max gain desired := le_max_right _ _
      linarith
  · push_neg at hd
    constructor
    · have h0 : min (gain - desired) AGC_SLEW_LIMIT ≤ gain - desired :=
        min_le_left _ _
      have h1 : min gain desired ≤ desired := min_le_right _ _
      linarith
    · have h0 : (0:ℚ) ≤ min (gain - desired) AGC_SLEW_LIMIT :=
        le_min (by linarith) agc_slew_limit_nonneg
      have h1 : gain ≤ max gain desired := le_max_left _ _
      linarith

theorem agc_step_true (s : AgcState) (rms : ℚ) :
    agc_step s true rms =
      ⟨agc_slew s.gain (agc_desired (agc_rolling_next s rms)),
        agc_rolling_next s rms⟩ := rfl

theorem agc_step_false (s : AgcState) (rms : ℚ) :
    agc_step s false rms = { s with gain := 1 } := rfl

theorem agc_step_gain_bounds (s : AgcState) (enabled : Bool) (rms : ℚ)
    (h1 : AGC_GAIN_MIN ≤ s.gain) (h2 : s.gain ≤ AGC_GAIN_MAX) :
    AGC_GAIN_MIN ≤ (agc_step s enabled rms).gain ∧
      (agc_step s enabled rms).gain ≤ AGC_GAIN_MAX := by
  cases enabled with
  | false =>
      rw [agc_step_false]
      constructor
      · norm_num [AGC_GAIN_MIN]
      · norm_num [AGC_GAIN_MAX]
  | true =>
      rw [agc_step_true]
      obtain ⟨hb1, hb2⟩ := agc_slew_between s.gain (agc_desired (agc_rolling_next s rms))
      obtain ⟨hd1, hd2⟩ := agc_desired_bounds (agc_rolling_next s rms)
      constructor
      · exact le_trans (le_min h1 hd1) hb1
      · exact le_trans hb2 (max_le h2 hd2)

theorem agc_run_gain_invariant (inputs : List (Bool × ℚ)) :
    AGC_GAIN_MIN ≤ (agc_run inputs).gain ∧ (agc_run inputs).gain ≤ AGC_GAIN_MAX := by
  have h : ∀ (l : List (Bool × ℚ)) (s : AgcState),
      AGC_GAIN_MIN ≤ s.gain → s.gain ≤ AGC_GAIN_MAX →
      AGC_GAIN_MIN ≤ (l.foldl (fun s p => agc_step s p.1 p.2) s).gain ∧
        (l.foldl (fun s p => agc_step s p.1 p.2) s).gain ≤ AGC_GAIN_MAX := by
    intro l
    induction l with
    | nil => intro s h1 h2; exact ⟨h1, h2⟩
    | cons p rest ih =>
        intro s h1 h2
        obtain ⟨h1s, h2s⟩ := agc_step_gain_bounds s p.1 p.2 h1 h2
        simpa [List.foldl] using ih (agc_step s p.1 p.2) h1s h2s
  have hinit1 : AGC_GAIN_MIN ≤ agc_init.gain := by
    norm_num [agc_init, AGC_GAIN_MIN]
  have hinit2 : agc_init.gain ≤ AGC_GAIN_MAX := by
    norm_num [agc_init, AGC_GAIN_MAX]
  exact h inputs agc_init hinit1 hinit2

theorem agc_slew_change_bounded (gain desired : ℚ) :
    |agc_slew gain desired - gain| ≤ AGC_SLEW_LIMIT := by
  unfold agc_slew
  split_ifs with hd
  · have h0 : (0:ℚ) ≤ min (desired - gain) AGC_SLEW_LIMIT :=
      le_min (by linarith) agc_slew_limit_nonneg
    have h1 : min (desired - gain) AGC_SLEW_LIMIT ≤ AGC_SLEW_LIMIT :=
      min_le_right _ _
    rw [abs_sub_le_iff]
    constructor <;> linarith [agc_slew_limit_nonneg]
  · push_neg at hd
    have h0 : (0:ℚ) ≤ min (gain - desired) AGC_SLEW_LIMIT :=
      le_min (by linarith) agc_slew_limit_nonneg
    have h1 : min (gain - desired) AGC_SLEW_LIMIT ≤ AGC_SLEW_LIMIT :=
      min_le_right _ _
    rw [abs_sub_le_iff]
    constructor <;> linarith [agc_slew_limit_nonneg]

/-- C1: whenever AGC is enabled, after every cycle of calculate_vu the
gain multiplier lies in the configured clamp range [0.5, 8.0], and an
enabled cycle never moves the gain by more than the 0.05 per-cycle slew
limit, for every sequence of input RMS values (and enable flags). -/
theorem agc_gain_clamped_and_slew_limited :
    (∀ inputs : List (Bool × ℚ),
        AGC_GAIN_MIN ≤ (agc_run inputs).gain ∧
          (agc_run inputs).gain ≤ AGC_GAIN_MAX) ∧
    (∀ (s : AgcState) (rms : ℚ),
        |(agc_step s true rms).gain - s.gain| ≤ AGC_SLEW_LIMIT) := by
  constructor
  · exact agc_run_gain_invariant
  · intro s rms
    rw [agc_step_true]
    exact agc_slew_change_bounded s.gain (agc_desired (agc_rolling_next s rms))

end SensoryBridge

namespace SensoryBridge

/-! ### Silence gate

Embedding of the silence gate at the top of calculate_vu
(src/src/i2s_audio.h, lines 347-359) and the gating of the VU level
(line 371).  The gate counts consecutive cycles whose raw (pre-AGC) RMS
is below SILENCE_THRESHOLD; the counter saturates at 20 and is reset to
zero by any louder cycle.  The gate is asserted while the counter has
reached 10, and is forced off whenever AGC is disabled. -/

/-- SILENCE_THRESHOLD = 0.01f (i2s_audio.h line 349). -/
def SILENCE_THRESHOLD : ℚ := 1/100

/-- One update of the function-static silence_counter
(i2s_audio.h lines 350-354). -/
def silence_counter_step (c : ℕ) (raw_rms : ℚ) : ℕ :=
  if raw_rms < SILENCE_THRESHOLD then (if c < 20 then c + 1 else c) else 0

/-- SILENCE_GATE_ACTIVE as computed on lines 355-359. -/
def silence_gate_active (agc_enabled : Bool) (c : ℕ) : Bool :=
  if agc_enabled then decide (10 ≤ c) else false

/-- The silence counter after a whole sequence of cycles, one raw RMS
value per cycle, starting from the initial value 0. -/
def silence_counter_run (l : List ℚ) : ℕ := l.foldl silence_counter_step 0

/-- audio_vu_level = SILENCE_GATE_ACTIVE ? 0 : rms (i2s_audio.h line 371). -/
def vu_gated (gate : Bool) (rms : ℚ) : ℚ := if gate then 0 else rms

/-- Spec-side definition (for comparison with the code): the number of
consecutive qualifying (quiet) cycles at the end of the input sequence. -/
def trailing_quiet_count (l : List ℚ) : ℕ :=
  (l.reverse.takeWhile (fun x => decide (x < SILENCE_THRESHOLD))).length

theorem silence_counter_run_append (l : List ℚ) (x : ℚ) :
    silence_counter_run (l ++ [x]) =
      silence_counter_step (silence_counter_run l) x := by
  unfold silence_counter_run
  rw [List.foldl_append]
  rfl

theorem trailing_quiet_count_append (l : List ℚ) (x : ℚ) :
    trailing_quiet_count (l ++ [x]) =
      if x < SILENCE_THRESHOLD then trailing_quiet_count l + 1 else 0 := by
  unfold trailing_quiet_count
  rw [List.reverse_append]
  simp only [List.reverse_singleton, List.singleton_append, List.takeWhile_cons,
    decide_eq_true_eq]
  split_ifs with h
  · simp
  · simp

theorem silence_counter_run_eq_trailing (l : List ℚ) :
    silence_counter_run l = min (trailing_quiet_count l) 20 := by
  induction l using List.reverseRecOn with
  | nil => rfl
  | append_singleton l x ih =>
      rw [silence_counter_run_append, trailing_quiet_count_append, ih]
      unfold silence_counter_step
      split_ifs with hx hc
      · have ht : trailing_quiet_count l < 20 := by
          rcases min_lt_iff.mp hc with h | h
          · exact h
          · omega
        rw [min_eq_left (by omega), min_eq_left (by omega)]
      · have ht : 20 ≤ trailing_quiet_count l := (le_min_iff.mp (not_lt.mp hc)).1
        rw [min_eq_right (by omega), min_eq_right (by omega)]
      · exact (min_eq_left (by omega)).symm

/-- C2 counterexample: drive the gate with ten consecutive quiet cycles
(raw RMS 0, below the 0.01 threshold) so that it asserts, then feed one
single loud cycle (raw RMS 1).  The gate deasserts immediately on that
single-cycle blip, although only one (not the debounce count of 10)
non-qualifying cycle has occurred. -/
theorem silence_gate_single_blip_deasserts :
    silence_gate_active true (silence_counter_run (List.replicate 10 0)) = true ∧
    silence_gate_active true
      (silence_counter_step (silence_counter_run (List.replicate 10 0)) 1) = false := by
  have h1 : silence_counter_run (List.replicate 10 0) = 10 := by
    norm_num [silence_counter_run, silence_counter_step, SILENCE_THRESHOLD,
      List.replicate]
  constructor
  · rw [h1]
    rfl
  · rw [h1]
    norm_num [silence_counter_step, silence_gate_active, SILENCE_THRESHOLD]

/-- C2 (amended): with AGC enabled the silence gate is asserted exactly
when at least 10 consecutive qualifying cycles (raw RMS below the 0.01
threshold) have just occurred — so asserting is debounced and a
single-cycle quiet blip never asserts the gate — but deassertion is NOT
debounced: one single cycle at or above the threshold deasserts the gate
at once.  While the gate is asserted the VU level is forced to zero. -/
theorem silence_gate_debounce_and_forced_zero :
    (∀ l : List ℚ,
        silence_gate_active true (silence_counter_run l) = true ↔
          10 ≤ trailing_quiet_count l) ∧
    (∀ (c : ℕ) (rms : ℚ), ¬ rms < SILENCE_THRESHOLD →
        silence_gate_active true (silence_counter_step c rms) = false) ∧
    (∀ rms : ℚ, vu_gated true rms = 0) := by
  refine ⟨?_, ?_, ?_⟩
  · intro l
    rw [silence_counter_run_eq_trailing]
    unfold silence_gate_active
    simp only [if_true, decide_eq_true_eq]
    omega
  · intro c rms h
    unfold silence_counter_step silence_gate_active
    simp [h]
  · intro rms
    rfl

/-- Concrete instance of the amended C2 theorem: a counter value of 15
(gate asserted) is reset by one cycle of raw RMS 1, deasserting the gate. -/
theorem silence_gate_debounce_witness :
    silence_gate_active true (silence_counter_step 15 1) = false :=
  silence_gate_debounce_and_forced_zero.2.1 15 1 (by norm_num [SILENCE_THRESHOLD])

/-! ### VU level computation

Embedding of the remainder of calculate_vu (src/src/i2s_audio.h, lines
361-411): the previous VU level is saved, the gated RMS becomes the new
VU level, and depending on noise_complete either the calibration floor
is raised or the floor is subtracted, clamped and rescaled.  The final
average is the mean of the current and previous VU level. -/

/-- The 0.99f clamp applied to CONFIG.VU_LEVEL_FLOOR (i2s_audio.h
line 407). -/
def VU_FLOOR_MAX : ℚ := 99/100

/-- Outputs of one calculate_vu cycle: audio_vu_level,
audio_vu_level_average, and the (possibly updated) CONFIG.VU_LEVEL_FLOOR. -/
structure VuCycleResult where
  vu : ℚ
  vu_avg : ℚ
  floor : ℚ
  deriving Repr, DecidableEq

/-- The VU-level portion of calculate_vu (i2s_audio.h lines 361-411).
`vu_prev` is audio_vu_level at entry (saved into audio_vu_level_last),
`floor` is CONFIG.VU_LEVEL_FLOOR at entry, `rms` the frame RMS, `gate`
the freshly computed SILENCE_GATE_ACTIVE. -/
def calculate_vu_level (noise_complete gate : Bool) (floor vu_prev rms : ℚ) :
    VuCycleResult :=
  let last := vu_prev
  let v0 : ℚ := if gate then 0 else rms
  if noise_complete then
    let v1 := v0 - floor
    let v2 := if v1 < 0 then 0 else v1
    let floor1 := min VU_FLOOR_MAX floor
    let v3 := v2 / (1 - floor1)
    ⟨v3, (v3 + last) / 2, floor1⟩
  else
    let floor1 := if v0 * (3/2) > floor then v0 * (3/2) else floor
    ⟨v0, (v0 + last) / 2, floor1⟩

/-- C7: once calibration is complete (noise_complete) and the silence
gate is not asserted, in any cycle whose entry floor is already within
the 0.99 clamp (every post-calibration cycle re-establishes this),
calculate_vu produces audio_vu_level = max 0 (rms − VU_LEVEL_FLOOR)
divided by (1 − VU_LEVEL_FLOOR), stores the floor clamped to at most
0.99, and audio_vu_level_average is the arithmetic mean of the current
and previous cycle VU levels. -/
theorem calculate_vu_postcal_formula (floor vu_prev rms : ℚ)
    (hf : floor ≤ VU_FLOOR_MAX) :
    (calculate_vu_level true false floor vu_prev rms).vu
        = max 0 (rms - floor) / (1 - floor) ∧
    (calculate_vu_level true false floor vu_prev rms).floor
        = min VU_FLOOR_MAX floor ∧
    (calculate_vu_level true false floor vu_prev rms).floor ≤ VU_FLOOR_MAX ∧
    (calculate_vu_level true false floor vu_prev rms).vu_avg
        = ((calculate_vu_level true false floor vu_prev rms).vu + vu_prev) / 2 := by
  have hmin : min VU_FLOOR_MAX floor = floor := min_eq_right hf
  have hmax : (if rms - floor < 0 then (0:ℚ) else rms - floor) = max 0 (rms - floor) := by
    rw [max_def]
    split_ifs with h1 h2 h2 <;> first | rfl | linarith
  have hres : calculate_vu_level true false floor vu_prev rms =
      ⟨max 0 (rms - floor) / (1 - floor),
        (max 0 (rms - floor) / (1 - floor) + vu_prev) / 2, floor⟩ := by
    unfold calculate_vu_level
    simp only [Bool.false_eq_true, if_false, if_true, ite_false, ite_true]
    rw [hmin, hmax]
  rw [hres]
  exact ⟨rfl, hmin.symm, hf, rfl⟩

/-- Concrete instance of the C7 theorem at floor 0.1, rms 0.5. -/
theorem calculate_vu_postcal_witness :
    (calculate_vu_level true false (1/10) 0 (1/2)).vu
        = max 0 ((1:ℚ)/2 - 1/10) / (1 - 1/10) :=
  (calculate_vu_postcal_formula (1/10) 0 (1/2) (by norm_num [VU_FLOOR_MAX])).1

end SensoryBridge

namespace SensoryBridge

/-! ### Sample history window

Embedding of the sample_window update of acquire_sample_chunk
(src/src/i2s_audio.h, lines 304-309).  The two loops shift the window
left by SAMPLES_PER_CHUNK samples and copy the freshly conditioned
waveform chunk into the tail.  The first loop reads only indices ahead
of the one it writes, so every read observes the original window
contents, which the pointwise map below reproduces.  Crucially, the
loops sit inside the else-branch of `if (!noise_complete)` (line 155):
while noise calibration is running the window is not touched at all. -/

/-- SAMPLE_HISTORY_LENGTH = 4096 (src/src/constants.h line 11). -/
def SAMPLE_HISTORY_LENGTH : ℕ := 4096

/-- CONFIG.SAMPLES_PER_CHUNK = 128 (globals.h line 100; re-forced to 128
in init_fs, bridge_fs.h line 275). -/
def SAMPLES_PER_CHUNK : ℕ := 128

/-- Effect of one acquire_sample_chunk call on sample_window.  `waveform`
is the conditioned chunk produced earlier in the same call. -/
def acquire_window_effect (noise_complete : Bool) (window waveform : List ℤ) :
    List ℤ :=
  if noise_complete then
    (List.range SAMPLE_HISTORY_LENGTH).map (fun i =>
      if i < SAMPLE_HISTORY_LENGTH - SAMPLES_PER_CHUNK then
        window.getD (i + SAMPLES_PER_CHUNK) 0
      else
        waveform.getD (i - (SAMPLE_HISTORY_LENGTH - SAMPLES_PER_CHUNK)) 0)
  else window

/-- Pointwise form of the shift-and-append update: the loops of lines
304-309 compute exactly this map when calibration is complete. -/
theorem acquire_window_effect_complete (window waveform : List ℤ) :
    acquire_window_effect true window waveform =
      (List.range SAMPLE_HISTORY_LENGTH).map (fun i =>
        if i < SAMPLE_HISTORY_LENGTH - SAMPLES_PER_CHUNK then
          window.getD (i + SAMPLES_PER_CHUNK) 0
        else
          waveform.getD (i - (SAMPLE_HISTORY_LENGTH - SAMPLES_PER_CHUNK)) 0) := rfl

/-- C4 counterexample: a call with noise calibration still in progress
(noise_complete == false) leaves sample_window unchanged, and for the
all-ones window with an all-zero conditioned chunk the unchanged window
differs from the shift-and-append result the claim requires on every
call. -/
theorem sample_window_not_advanced_during_calibration :
    acquire_window_effect false (List.replicate 4096 (1:ℤ)) (List.replicate 1024 0)
        = List.replicate 4096 (1:ℤ) ∧
    acquire_window_effect false (List.replicate 4096 (1:ℤ)) (List.replicate 1024 0)
        ≠ (List.replicate 4096 (1:ℤ)).drop SAMPLES_PER_CHUNK
            ++ (List.replicate 1024 (0:ℤ)).take SAMPLES_PER_CHUNK := by
  have heq : acquire_window_effect false (List.replicate 4096 (1:ℤ))
      (List.replicate 1024 0) = List.replicate 4096 (1:ℤ) := rfl
  refine ⟨heq, ?_⟩
  intro h
  rw [heq] at h
  have h2 := congrArg (fun l => l[4095]?) h
  dsimp only [] at h2
  rw [List.getElem?_replicate, if_pos (by decide),
    List.getElem?_append_right
      (by rw [List.length_drop, List.length_replicate]; decide),
    List.length_drop, List.length_replicate, List.getElem?_take,
    if_pos (by decide), List.getElem?_replicate, if_pos (by decide)] at h2
  exact absurd h2 (by decide)

/-- General form of the shift-and-append identity, proved for a window of
length n and a chunk of size c. -/
theorem shift_append_general (n c : ℕ) (window waveform : List ℤ)
    (hw : window.length = n) (hv : c ≤ waveform.length) (hcn : c ≤ n) :
    (List.range n).map (fun i =>
        if i < n - c then window.getD (i + c) 0
        else waveform.getD (i - (n - c)) 0)
      = window.drop c ++ waveform.take c := by
  apply List.ext_getElem
  · rw [List.length_map, List.length_range, List.length_append,
      List.length_drop, List.length_take, hw, min_eq_left hv]
    omega
  · intro i h1 h2
    rw [List.getElem_map, List.getElem_range]
    have hin : i < n := by
      rw [List.length_map, List.length_range] at h1
      exact h1
    by_cases hi : i < n - c
    · rw [if_pos hi]
      have hidx : i + c < window.length := by omega
      rw [List.getD_eq_getElem window 0 hidx]
      have hdl : i < (window.drop c).length := by
        rw [List.length_drop]
        omega
      rw [List.getElem_append_left hdl, List.getElem_drop]
      congr 1
      omega
    · rw [if_neg hi]
      have hidx : i - (n - c) < waveform.length := by omega
      rw [List.getD_eq_getElem waveform 0 hidx]
      have hdl : (window.drop c).length ≤ i := by
        rw [List.length_drop]
        omega
      rw [List.getElem_append_right hdl, List.getElem_take]
      congr 1
      rw [List.length_drop]
      omega

/-- C4 (amended): on every acquire_sample_chunk call made after noise
calibration has completed (noise_complete), the sample-history window
advances by exactly one chunk: the oldest SAMPLES_PER_CHUNK entries are
discarded, the remaining entries shift toward the front, and the first
SAMPLES_PER_CHUNK entries of the conditioned waveform are appended at
the end.  During calibration the window is left unchanged. -/
theorem sample_window_shift_append (window waveform : List ℤ)
    (hw : window.length = SAMPLE_HISTORY_LENGTH)
    (hv : SAMPLES_PER_CHUNK ≤ waveform.length) :
    acquire_window_effect true window waveform
      = window.drop SAMPLES_PER_CHUNK ++ waveform.take SAMPLES_PER_CHUNK := by
  rw [acquire_window_effect_complete]
  exact shift_append_general SAMPLE_HISTORY_LENGTH SAMPLES_PER_CHUNK
    window waveform hw hv (by decide)

/-- Concrete instance of the amended C4 theorem: shifting an all-zero
window and appending an all-zero chunk. -/
theorem sample_window_shift_append_witness :
    acquire_window_effect true (List.replicate 4096 (0:ℤ)) (List.replicate 1024 0)
      = (List.replicate 4096 (0:ℤ)).drop SAMPLES_PER_CHUNK
          ++ (List.replicate 1024 (0:ℤ)).take SAMPLES_PER_CHUNK :=
  sample_window_shift_append (List.replicate 4096 0) (List.replicate 1024 0)
    (by rw [List.length_replicate]; rfl) (by rw [List.length_replicate]; decide)

end SensoryBridge

namespace SensoryBridge

/-! ### Goertzel analysis-window precomputation

Embedding of precompute_goertzel_constants (src/src/system.h, lines
216-283) at the default CONFIG.NOTE_OFFSET = 0 (globals.h line 101).
Every notes[] entry (src/src/constants.h lines 78-87) is a decimal
literal with at most five fractional digits, so the table is carried
here exactly, scaled by 10^5 into integers; all the derived real
arithmetic (neighbour distances, the division and its truncation into
the uint16_t block_size) is then computed exactly over naturals:
floor(rate / (2 * d / 10^5)) = (rate * 10^5) / (2 * d_scaled). -/

/-- NUM_FREQS = 96 (src/src/constants.h line 15). -/
def NUM_FREQS : ℕ := 96

/-- The notes frequency table in units of 10^-5 Hz. -/
def notes_scaled : List ℕ := [
  5500000, 5827047, 6173541, 6540639, 6929566, 7341619,
  7778175, 8240689, 8730706, 9249861, 9799886, 10382620,
  11000000, 11654090, 12347080, 13081280, 13859130, 14683240,
  15556350, 16481380, 17461410, 18499720, 19599770, 20765230,
  22000000, 23308190, 24694170, 26162560, 27718260, 29366480,
  31112700, 32962760, 34922820, 36999440, 39199540, 41530470,
  44000000, 46616380, 49388330, 52325110, 55436530, 58732950,
  62225400, 65925510, 69845650, 73998880, 78399090, 83060940,
  88000000, 93232750, 98776660, 104650200, 110873100, 117465900,
  124450800, 131851000, 139691300, 147997800, 156798200, 166121900,
  176000000, 186465500, 197553300, 209300500, 221746100, 234931800,
  248901600, 263702000, 279382500, 295995600, 313596400, 332243700,
  352000000, 372931000, 395106500, 418600900, 443492200, 469863600,
  497803200, 527404100, 558765200, 591991100, 627192700, 664487500,
  704000000, 745862000, 790213000, 837201800, 886984400, 939727200,
  995606400, 1054808000, 1117530000, 1183982000, 1254385000, 1328975000]

/-- neighbor_left for bin i (system.h lines 224-233): the bin itself for
i = 0, otherwise the previous note. -/
def goertzel_neighbor_left (i : ℕ) : ℕ :=
  if i = 0 then notes_scaled.getD i 0 else notes_scaled.getD (i - 1) 0

/-- neighbor_right for bin i (system.h lines 224-233): the bin itself
for the last bin, otherwise the next note. -/
def goertzel_neighbor_right (i : ℕ) : ℕ :=
  if i = NUM_FREQS - 1 then notes_scaled.getD i 0 else notes_scaled.getD (i + 1) 0

/-- max_distance_hz for bin i (system.h lines 235-243), scaled by 10^5:
starts at zero and is raised by each neighbour distance that exceeds it. -/
def max_distance_scaled (i : ℕ) : ℕ :=
  let target := notes_scaled.getD i 0
  let nl := goertzel_neighbor_left i
  let nr := goertzel_neighbor_right i
  let dl := max nl target - min nl target
  let dr := max nr target - min nr target
  max (max 0 dl) dr

/-- block_size before the history cap (system.h line 245):
CONFIG.SAMPLE_RATE / (max_distance_hz * 2.0), truncated into uint16_t.
Computed exactly: floor(rate / (2 * d)) at the 10^5 scale. -/
def goertzel_block_size_raw (rate i : ℕ) : ℕ :=
  rate * 100000 / (2 * max_distance_scaled i)

/-- block_size after the cap at SAMPLE_HISTORY_LENGTH (system.h lines
251-253). -/
def goertzel_block_size (rate i : ℕ) : ℕ :=
  if goertzel_block_size_raw rate i > SAMPLE_HISTORY_LENGTH then
    SAMPLE_HISTORY_LENGTH
  else goertzel_block_size_raw rate i

/-- The valid sample-rate set accepted by
AudioGuard::validateAudioState (src/audio_guard.h lines 147-150). -/
def is_valid_sample_rate (rate : ℕ) : Bool :=
  rate = 8000 || rate = 16000 || rate = 22050 ||
    rate = 32000 || rate = 44100 || rate = 48000

/-- inv_block_size_half (system.h lines 256-260): 2.0 / block_size when
the window length is positive, and exactly zero instead of a division by
zero when it is zero. -/
def inv_block_size_half (block_size : ℕ) : ℚ :=
  if block_size > 0 then 2 / (block_size : ℚ) else 0

/-- The per-bin normalization of GDFT_optimized
(src/src/GDFT_optimized.h lines 97-101): the bin magnitude multiplied by
the precomputed inv_block_size_half. -/
def gdft_normalized_magnitude (magnitude : ℚ) (block_size : ℕ) : ℚ :=
  magnitude * inv_block_size_half block_size

/-- C5: for every valid sample-rate configuration,
precompute_goertzel_constants assigns each of the NUM_FREQS bins a
block_size that is strictly positive and at most SAMPLE_HISTORY_LENGTH. -/
theorem goertzel_block_size_pos_le_history (rate : ℕ)
    (hr : is_valid_sample_rate rate = true) (i : ℕ) (hi : i < NUM_FREQS) :
    0 < goertzel_block_size rate i ∧
      goertzel_block_size rate i ≤ SAMPLE_HISTORY_LENGTH := by
  have hr6 : rate = 8000 ∨ rate = 16000 ∨ rate = 22050 ∨ rate = 32000 ∨
      rate = 44100 ∨ rate = 48000 := by
    unfold is_valid_sample_rate at hr
    simp only [Bool.or_eq_true, decide_eq_true_eq] at hr
    tauto
  rcases hr6 with h | h | h | h | h | h <;> subst h <;> revert i hi <;> decide

/-- Concrete instance of the C5 theorem: bin 0 at the 32 kHz
configuration the firmware forces in init_fs. -/
theorem goertzel_block_size_witness :
    0 < goertzel_block_size 32000 0 ∧
      goertzel_block_size 32000 0 ≤ SAMPLE_HISTORY_LENGTH :=
  goertzel_block_size_pos_le_history 32000 (by decide) 0 (by decide)

/-- C6: a zero analysis-window length short-circuits the normalization
factor inv_block_size_half to exactly zero instead of dividing by zero,
and the GDFT normalized magnitude of such a bin is consequently zero for
every value the magnitude recursion could produce. -/
theorem zero_block_size_short_circuit :
    inv_block_size_half 0 = 0 ∧
    ∀ magnitude : ℚ, gdft_normalized_magnitude magnitude 0 = 0 := by
  constructor
  · rfl
  · intro m
    unfold gdft_normalized_magnitude inv_block_size_half
    simp

end SensoryBridge

namespace SensoryBridge

/-! ### Loudness-zone ("sweet spot") state machine

Embedding of the zone logic of acquire_sample_chunk
(src/src/i2s_audio.h, lines 52-262), covering the smoothing of the raw
peak (line 121), the dynamic silence threshold derived from the AGC
floor tracker (lines 157-164), the dwell-gated zone commit (lines
195-249) and the floor-tracker ratchet while silent (lines 251-262).
The zone is driven once per acquisition cycle by the cycle timestamp
t_now (millis, a uint32) and the cycle peak max_waveform_val_raw. -/

/-- MIN_STATE_DURATION_MS = 1500 (i2s_audio.h line 58). -/
def MIN_STATE_DURATION_MS : ℕ := 1500

/-- AGC_FLOOR_INITIAL_RESET (globals.h line 360). -/
def AGC_FLOOR_INITIAL_RESET : ℚ := 65535

/-- AGC_FLOOR_SCALING_FACTOR = 0.01 (globals.h line 361). -/
def AGC_FLOOR_SCALING_FACTOR : ℚ := 1/100

/-- AGC_FLOOR_MIN_CLAMP_RAW (globals.h line 362). -/
def AGC_FLOOR_MIN_CLAMP_RAW : ℚ := 10

/-- AGC_FLOOR_MAX_CLAMP_RAW (globals.h line 363). -/
def AGC_FLOOR_MAX_CLAMP_RAW : ℚ := 30000

/-- AGC_FLOOR_MIN_CLAMP_SCALED = 0.5 (globals.h line 364). -/
def AGC_FLOOR_MIN_CLAMP_SCALED : ℚ := 1/2

/-- AGC_FLOOR_MAX_CLAMP_SCALED (globals.h line 365). -/
def AGC_FLOOR_MAX_CLAMP_SCALED : ℚ := 100

/-- AGC_FLOOR_RECOVERY_RATE (globals.h line 366). -/
def AGC_FLOOR_RECOVERY_RATE : ℚ := 50

/-- The modulus of uint32 arithmetic on t_now, 2^32. -/
def UINT32_MOD : ℕ := 4294967296

/-- uint32 subtraction t_now - last_state_change_time (for operands
below 2^32). -/
def elapsed32 (t last : ℕ) : ℕ := (t + UINT32_MOD - last) % UINT32_MOD

/-- The zone-machine state: sweet_spot_state (globals.h line 222), the
static last_state_change_time and max_waveform_val_raw_smooth
(i2s_audio.h lines 57-59), and min_silent_level_tracker
(globals.h line 359). -/
structure SweetSpotState where
  zone : ℤ
  last_change : ℕ
  smooth : ℚ
  tracker : ℚ
  deriving Repr, DecidableEq

/-- Startup state: zone 0, last change 0, smoothed peak 0.0, tracker
100.0. -/
def sweet_spot_init : SweetSpotState := ⟨0, 0, 0, 100⟩

/-- threshold_silence computed from the floor tracker (i2s_audio.h
lines 158-164): clamp the raw tracker, scale by 0.01, clamp again. -/
def threshold_silence (tracker : ℚ) : ℚ :=
  let raw1 := if tracker < AGC_FLOOR_MIN_CLAMP_RAW then AGC_FLOOR_MIN_CLAMP_RAW
    else tracker
  let raw2 := if raw1 > AGC_FLOOR_MAX_CLAMP_RAW then AGC_FLOOR_MAX_CLAMP_RAW
    else raw1
  let scaled1 := raw2 * AGC_FLOOR_SCALING_FACTOR
  let scaled2 := if scaled1 < AGC_FLOOR_MIN_CLAMP_SCALED then
    AGC_FLOOR_MIN_CLAMP_SCALED else scaled1
  if scaled2 > AGC_FLOOR_MAX_CLAMP_SCALED then AGC_FLOOR_MAX_CLAMP_SCALED
  else scaled2

/-- potential_next_state (i2s_audio.h lines 195-204), decided on the
smoothed peak. -/
def sweet_spot_potential (smooth th_silence max_level : ℚ) : ℤ :=
  if smooth ≤ th_silence then -1 else if smooth ≥ max_level then 1 else 0

/-- The dwell-gated commit (i2s_audio.h lines 206-249), including the
deadband-guarded floor-tracker reset on entry into Silent (lines
216-233).  `max_level` is CONFIG.SWEET_SPOT_MAX_LEVEL. -/
def sweet_spot_commit_stage (max_level : ℚ) (s : SweetSpotState) (t : ℕ)
    (raw : ℚ) : SweetSpotState :=
  let smooth := raw * (1/5) + s.smooth * (4/5)
  let th := threshold_silence s.tracker
  let potential := sweet_spot_potential smooth th max_level
  if potential ≠ s.zone ∧ MIN_STATE_DURATION_MS < elapsed32 t s.last_change then
    ⟨potential, t, smooth,
      if potential = -1 ∧ s.zone ≠ -1 ∧ th - raw > 50 then
        AGC_FLOOR_INITIAL_RESET
      else s.tracker⟩
  else ⟨s.zone, s.last_change, smooth, s.tracker⟩

/-- The floor-tracker ratchet performed while the zone is Silent
(i2s_audio.h lines 251-262). -/
def sweet_spot_ratchet (s : SweetSpotState) (raw : ℚ) : SweetSpotState :=
  if s.zone = -1 then
    ⟨s.zone, s.last_change, s.smooth,
      if raw < s.tracker then raw
      else min (s.tracker + AGC_FLOOR_RECOVERY_RATE) AGC_FLOOR_INITIAL_RESET⟩
  else s

/-- One acquisition cycle of the zone machine (commit stage followed by
the silent-state ratchet, in source order). -/
def sweet_spot_step (max_level : ℚ) (s : SweetSpotState) (t : ℕ) (raw : ℚ) :
    SweetSpotState :=
  sweet_spot_ratchet (sweet_spot_commit_stage max_level s t raw) raw

/-- The timestamps at which the zone actually changes value along a run;
each input pair is (t_now, max_waveform_val_raw) for one cycle. -/
def sweet_spot_commits (max_level : ℚ) :
    SweetSpotState → List (ℕ × ℚ) → List ℕ
  | _, [] => []
  | s, p :: rest =>
      let s1 := sweet_spot_step max_level s p.1 p.2
      if s1.zone ≠ s.zone then p.1 :: sweet_spot_commits max_level s1 rest
      else sweet_spot_commits max_level s1 rest

theorem sweet_spot_commits_nil (max_level : ℚ) (s : SweetSpotState) :
    sweet_spot_commits max_level s [] = [] := rfl

theorem sweet_spot_commits_cons (max_level : ℚ) (s : SweetSpotState)
    (p : ℕ × ℚ) (rest : List (ℕ × ℚ)) :
    sweet_spot_commits max_level s (p :: rest) =
      if (sweet_spot_step max_level s p.1 p.2).zone ≠ s.zone then
        p.1 :: sweet_spot_commits max_level
          (sweet_spot_step max_level s p.1 p.2) rest
      else
        sweet_spot_commits max_level (sweet_spot_step max_level s p.1 p.2)
          rest := rfl

theorem sweet_spot_ratchet_zone_last (s : SweetSpotState) (raw : ℚ) :
    (sweet_spot_ratchet s raw).zone = s.zone ∧
      (sweet_spot_ratchet s raw).last_change = s.last_change := by
  unfold sweet_spot_ratchet
  split_ifs <;> exact ⟨rfl, rfl⟩

theorem sweet_spot_commit_stage_cases (max_level : ℚ) (s : SweetSpotState)
    (t : ℕ) (raw : ℚ) :
    ((sweet_spot_commit_stage max_level s t raw).zone = s.zone ∧
      (sweet_spot_commit_stage max_level s t raw).last_change = s.last_change) ∨
    ((sweet_spot_commit_stage max_level s t raw).zone ≠ s.zone ∧
      MIN_STATE_DURATION_MS < elapsed32 t s.last_change ∧
      (sweet_spot_commit_stage max_level s t raw).last_change = t) := by
  unfold sweet_spot_commit_stage
  dsimp only
  split_ifs with h h2
  · right
    exact ⟨h.1, h.2, rfl⟩
  · right
    exact ⟨h.1, h.2, rfl⟩
  · left
    exact ⟨rfl, rfl⟩

theorem sweet_spot_step_cases (max_level : ℚ) (s : SweetSpotState)
    (t : ℕ) (raw : ℚ) :
    ((sweet_spot_step max_level s t raw).zone = s.zone ∧
      (sweet_spot_step max_level s t raw).last_change = s.last_change) ∨
    ((sweet_spot_step max_level s t raw).zone ≠ s.zone ∧
      MIN_STATE_DURATION_MS < elapsed32 t s.last_change ∧
      (sweet_spot_step max_level s t raw).last_change = t) := by
  have hr := sweet_spot_ratchet_zone_last (sweet_spot_commit_stage max_level s t raw) raw
  rcases sweet_spot_commit_stage_cases max_level s t raw with ⟨h1, h2⟩ | ⟨h1, h2, h3⟩
  · left
    unfold sweet_spot_step
    exact ⟨hr.1.trans h1, hr.2.trans h2⟩
  · right
    unfold sweet_spot_step
    refine ⟨?_, h2, hr.2.trans h3⟩
    rw [hr.1]
    exact h1

theorem elapsed32_of_le (t last : ℕ) (h1 : last ≤ t) (h2 : t < UINT32_MOD) :
    elapsed32 t last = t - last := by
  unfold elapsed32 UINT32_MOD at *
  omega

theorem sweet_spot_commits_gap (max_level : ℚ) (l : List (ℕ × ℚ)) :
    ∀ s : SweetSpotState,
      (∀ p ∈ l, s.last_change ≤ p.1) →
      l.Pairwise (fun a b => a.1 ≤ b.1) →
      (∀ p ∈ l, p.1 < UINT32_MOD) →
      List.Chain' (fun a b => a + MIN_STATE_DURATION_MS < b)
        (s.last_change :: sweet_spot_commits max_level s l) := by
  induction l with
  | nil =>
      intro s _ _ _
      exact List.chain'_singleton _
  | cons p rest ih =>
      intro s hle hpw hbd
      have hple : s.last_change ≤ p.1 := hle p (List.mem_cons_self p rest)
      have hpbd : p.1 < UINT32_MOD := hbd p (List.mem_cons_self p rest)
      have hrest_mono : ∀ q ∈ rest, p.1 ≤ q.1 := by
        intro q hq
        exact (List.pairwise_cons.mp hpw).1 q hq
      have hrest_pw : rest.Pairwise (fun a b => a.1 ≤ b.1) :=
        (List.pairwise_cons.mp hpw).2
      have hrest_bd : ∀ q ∈ rest, q.1 < UINT32_MOD := by
        intro q hq
        exact hbd q (List.mem_cons_of_mem p hq)
      rcases sweet_spot_step_cases max_level s p.1 p.2 with ⟨hz, hl⟩ | ⟨hz, he, hl⟩
      · have hcom : sweet_spot_commits max_level s (p :: rest) =
            sweet_spot_commits max_level
              (sweet_spot_step max_level s p.1 p.2) rest := by
          rw [sweet_spot_commits_cons, if_neg (not_not_intro hz)]
        rw [hcom]
        have := ih (sweet_spot_step max_level s p.1 p.2)
          (by
            intro q hq
            rw [hl]
            exact le_trans hple (hrest_mono q hq))
          hrest_pw hrest_bd
        rw [hl] at this
        exact this
      · have hcom : sweet_spot_commits max_level s (p :: rest) =
            p.1 :: sweet_spot_commits max_level
              (sweet_spot_step max_level s p.1 p.2) rest := by
          rw [sweet_spot_commits_cons, if_pos hz]
        rw [hcom]
        rw [elapsed32_of_le p.1 s.last_change hple hpbd] at he
        rw [List.chain'_cons]
        constructor
        · omega
        · have := ih (sweet_spot_step max_level s p.1 p.2)
            (by
              intro q hq
              rw [hl]
              exact hrest_mono q hq)
            hrest_pw hrest_bd
          rw [hl] at this
          exact this

/-- C3: for every configured loud threshold and every cycle sequence
with nondecreasing uint32 timestamps, the committed transitions of
sweet_spot_state are at least MIN_STATE_DURATION_MS apart: every pair of
consecutive commit times differs by no less than the minimum dwell time,
no matter how the loudness input oscillates across the thresholds. -/
theorem sweet_spot_min_dwell (max_level : ℚ) (l : List (ℕ × ℚ))
    (hmono : l.Pairwise (fun a b => a.1 ≤ b.1))
    (hbound : ∀ p ∈ l, p.1 < UINT32_MOD) :
    List.Chain' (fun a b => MIN_STATE_DURATION_MS ≤ b - a)
      (sweet_spot_commits max_level sweet_spot_init l) := by
  have h := sweet_spot_commits_gap max_level l sweet_spot_init
    (by intro p hp; exact Nat.zero_le _) hmono hbound
  have h2 := h.tail
  exact List.Chain'.imp (fun a b hab => by omega) h2

/-- Concrete instance of the C3 theorem: two cycles at t = 1600 ms and
t = 1700 ms with silent input. -/
theorem sweet_spot_min_dwell_witness :
    List.Chain' (fun a b => MIN_STATE_DURATION_MS ≤ b - a)
      (sweet_spot_commits 30000 sweet_spot_init [(1600, 0), (1700, 0)]) :=
  sweet_spot_min_dwell 30000 [(1600, 0), (1700, 0)]
    (by
      refine List.Pairwise.cons ?_ (List.pairwise_singleton _ _)
      intro q hq
      rcases List.mem_singleton.mp hq with h
      rw [h]
      norm_num)
    (by
      intro p hp
      rcases List.mem_cons.mp hp with h | h
      · rw [h]
        norm_num [UINT32_MOD]
      · rcases List.mem_singleton.mp h with h2
        rw [h2]
        norm_num [UINT32_MOD])

end SensoryBridge

namespace SensoryBridge

/-! ### Ambient-noise profile persistence

Embedding of save_ambient_noise_calibration and
load_ambient_noise_calibration (src/src/bridge_fs.h, lines 175-254).
Save writes, for bins 0 .. NUM_FREQS-1 in order, the four bytes of
float(noise_samples[i]); load reads them back in the same order and
stores SQ15x16(value).  The byte serialization itself is
value-preserving (the same four bytes are read back), so the file is
modelled as the list of float values written.

Modelled from the spec: the SQ15x16 fixed-point type and its float
conversions live in the external FixedPoints library, which is not part
of this repository.  Following the spec (§6: the profile is exchanged as
"a flat array of IEEE-754 floats, one per bin, in bin order"; §8 allows
"within float epsilon"), a noise_samples entry is the exact rational
n / 2^16 carried by its 32-bit Q15.16 payload n, conversion to float32
rounds n to 24 significant bits (round to nearest, ties to even) —
computed below by rnd24 — and conversion back multiplies by 2^16, which
is exact because the rounded payload is an integer. -/

/-- Round an integer to at most 24 significant bits, round to nearest
with ties to even: the significand rounding float32 performs on a
Q15.16 payload. -/
def rnd24 (n : ℤ) : ℤ :=
  if n.natAbs < 2^24 then n
  else
    let m := n.natAbs
    let k := Nat.log2 m - 23
    let q := m / 2^k
    let r := m % 2^k
    let half := 2^(k-1)
    let q2 := if half < r ∨ (r = half ∧ q % 2 = 1) then q + 1 else q
    n.sign * (q2 * 2^k : ℕ)

/-- float(noise_samples[i]) for a Q15.16 payload n: the float32 value,
as an exact rational. -/
def fix_to_float_value (n : ℤ) : ℚ := (rnd24 n : ℚ) / 65536

/-- SQ15x16(float): scale back by 2^16 into the Q15.16 payload. -/
def float_to_fix_payload (x : ℚ) : ℤ := ⌊x * 65536⌋

/-- save_ambient_noise_calibration (bridge_fs.h lines 175-219): the
sequence of float values whose bytes are written to /noise_cal.bin, one
per bin in bin order. -/
def save_ambient_noise_calibration (profile : List ℤ) : List ℚ :=
  (profile.take NUM_FREQS).map fix_to_float_value

/-- load_ambient_noise_calibration (bridge_fs.h lines 222-254): read
NUM_FREQS floats back in order and convert each into noise_samples[i]. -/
def load_ambient_noise_calibration (file : List ℚ) : List ℤ :=
  (file.take NUM_FREQS).map float_to_fix_payload

theorem rnd24_small (n : ℤ) (h : n.natAbs < 2^24) : rnd24 n = n := by
  unfold rnd24
  rw [if_pos h]

theorem float_fix_roundtrip (n : ℤ) :
    float_to_fix_payload (fix_to_float_value n) = rnd24 n := by
  unfold float_to_fix_payload fix_to_float_value
  rw [div_mul_cancel₀ _ (by norm_num : (65536:ℚ) ≠ 0)]
  exact Int.floor_intCast _

theorem rnd24_abs_err (n : ℤ) :
    (rnd24 n - n).natAbs * 2^24 ≤ n.natAbs := by
  by_cases h : n.natAbs < 2^24
  · rw [rnd24_small n h, sub_self]
    simp
  · push_neg at h
    have hm0 : n.natAbs ≠ 0 := by
      intro h0
      rw [h0] at h
      exact absurd h (by norm_num)
    have hn0 : n ≠ 0 := fun h0 => hm0 (by rw [h0]; rfl)
    have hlog : 24 ≤ Nat.log2 n.natAbs := (Nat.le_log2 hm0).mpr h
    have hpow : 2 ^ Nat.log2 n.natAbs ≤ n.natAbs := Nat.log2_self_le hm0
    set m := n.natAbs with hm
    set k := Nat.log2 m - 23 with hk
    have hk1 : 1 ≤ k := by omega
    have hklog : k + 23 = Nat.log2 m := by omega
    have hlow : 2 ^ (k + 23) ≤ m := by
      rw [hklog]
      exact hpow
    set q := m / 2^k with hq
    set r := m % 2^k with hr
    have hmqr : 2^k * q + r = m := Nat.div_add_mod m (2^k)
    have hrlt : r < 2^k := Nat.mod_lt m (Nat.pos_pow_of_pos k (by norm_num))
    have hhalf : (2:ℕ)^(k-1) + 2^(k-1) = 2^k := by
      have : k - 1 + 1 = k := by omega
      calc (2:ℕ)^(k-1) + 2^(k-1) = 2^(k-1) * 2 := by ring
        _ = 2^(k-1+1) := by rw [pow_succ]
        _ = 2^k := by rw [this]
    have hrnd : rnd24 n = n.sign *
        ((if 2^(k-1) < r ∨ (r = 2^(k-1) ∧ q % 2 = 1) then q + 1 else q)
          * 2^k : ℕ) := by
      unfold rnd24
      rw [if_neg (by omega)]
    have hself : n = n.sign * (m : ℤ) := by
      rw [hm]
      exact (Int.sign_mul_natAbs n).symm
    have hsign : n.sign.natAbs = 1 := Int.natAbs_sign_of_nonzero hn0
    by_cases hcond : 2^(k-1) < r ∨ (r = 2^(k-1) ∧ q % 2 = 1)
    · have hr2 : 2^(k-1) ≤ r := by
        rcases hcond with h1 | h1
        · omega
        · omega
      have herr : ((q + 1) * 2^k : ℕ) - (m : ℤ) = ((2^k - r : ℕ) : ℤ) := by
        push_cast [Nat.cast_sub (le_of_lt hrlt)]
        have := hmqr
        push_cast [← this]
        ring
      rw [hrnd, if_pos hcond]
      calc (n.sign * (((q + 1) * 2^k : ℕ) : ℤ) - n).natAbs * 2^24
          = (n.sign * ((((q + 1) * 2^k : ℕ) : ℤ) - m)).natAbs * 2^24 := by
            congr 2
            nth_rewrite 2 [hself]
            rw [mul_sub]
        _ = (((((q + 1) * 2^k : ℕ) : ℤ) - m)).natAbs * 2^24 := by
            rw [Int.natAbs_mul, hsign, one_mul]
        _ = (2^k - r) * 2^24 := by
            rw [herr, Int.natAbs_ofNat]
        _ ≤ 2^(k-1) * 2^24 := by
            have : (2:ℕ)^k - r ≤ 2^(k-1) := by omega
            exact Nat.mul_le_mul_right _ this
        _ = 2^(k+23) := by
            rw [← pow_add]
            congr 1
            omega
        _ ≤ m := hlow
    · have hr2 : r ≤ 2^(k-1) := by
        by_contra hh
        push_neg at hh
        exact hcond (Or.inl hh)
      have herr : ((q * 2^k : ℕ) : ℤ) - (m : ℤ) = -(r : ℤ) := by
        have := hmqr
        push_cast [← this]
        ring
      rw [hrnd, if_neg hcond]
      calc (n.sign * ((q * 2^k : ℕ) : ℤ) - n).natAbs * 2^24
          = (n.sign * (((q * 2^k : ℕ) : ℤ) - m)).natAbs * 2^24 := by
            congr 2
            nth_rewrite 2 [hself]
            rw [mul_sub]
        _ = ((((q * 2^k : ℕ) : ℤ) - m)).natAbs * 2^24 := by
            rw [Int.natAbs_mul, hsign, one_mul]
        _ = r * 2^24 := by
            rw [herr, Int.natAbs_neg, Int.natAbs_ofNat]
        _ ≤ 2^(k-1) * 2^24 := Nat.mul_le_mul_right _ hr2
        _ = 2^(k+23) := by
            rw [← pow_add]
            congr 1
            omega
        _ ≤ m := hlow

/-- C8: saving the per-bin noise profile with
save_ambient_noise_calibration and restoring it with
load_ambient_noise_calibration reproduces the per-bin baselines in bin
order: the restored list has one entry per bin, every entry agrees with
the original within float32 epsilon (relative error at most 2^-24 of the
Q15.16 payload), and profiles whose payloads fit in 24 bits — every
value below 256.0 — are reproduced bit-exactly. -/
theorem noise_calibration_roundtrip (profile : List ℤ)
    (hlen : profile.length = NUM_FREQS) :
    (load_ambient_noise_calibration
        (save_ambient_noise_calibration profile)).length = NUM_FREQS ∧
    (∀ i : ℕ,
      ((load_ambient_noise_calibration
          (save_ambient_noise_calibration profile)).getD i 0
        - profile.getD i 0).natAbs * 2^24 ≤ (profile.getD i 0).natAbs) ∧
    ((∀ n ∈ profile, n.natAbs < 2^24) →
      load_ambient_noise_calibration
        (save_ambient_noise_calibration profile) = profile) := by
  have hsave : save_ambient_noise_calibration profile =
      profile.map fix_to_float_value := by
    unfold save_ambient_noise_calibration
    rw [← hlen, List.take_length]
  have hfilelen : (profile.map fix_to_float_value).length = NUM_FREQS := by
    rw [List.length_map, hlen]
  have hload : load_ambient_noise_calibration
      (save_ambient_noise_calibration profile) =
      profile.map (fun n => float_to_fix_payload (fix_to_float_value n)) := by
    unfold load_ambient_noise_calibration
    rw [hsave, ← hfilelen, List.take_length, List.map_map]
    rfl
  have hrt : load_ambient_noise_calibration
      (save_ambient_noise_calibration profile) =
      profile.map rnd24 := by
    rw [hload]
    exact List.map_congr_left (fun n _ => float_fix_roundtrip n)
  refine ⟨?_, ?_, ?_⟩
  · rw [hrt, List.length_map, hlen]
  · intro i
    rw [hrt]
    by_cases hi : i < profile.length
    · rw [List.getD_eq_getElem profile 0 hi,
        List.getD_eq_getElem (profile.map rnd24) 0
          (by rw [List.length_map]; exact hi),
        List.getElem_map]
      exact rnd24_abs_err _
    · push_neg at hi
      rw [List.getD_eq_default _ _ (by rw [List.length_map]; exact hi),
        List.getD_eq_default _ _ hi]
      simp
  · intro hsmall
    rw [hrt]
    calc profile.map rnd24 = profile.map id := by
          exact List.map_congr_left (fun n hn => rnd24_small n (hsmall n hn))
      _ = profile := List.map_id profile

/-- Concrete instance of the C8 theorem: the constant profile with every
bin at Q15.16 payload 65536 (the value 1.0, the startup default of
noise_samples) survives the save/load round trip bit-exactly. -/
theorem noise_calibration_roundtrip_witness :
    load_ambient_noise_calibration
        (save_ambient_noise_calibration (List.replicate 96 (65536:ℤ)))
      = List.replicate 96 (65536:ℤ) :=
  (noise_calibration_roundtrip (List.replicate 96 65536)
      (by rw [List.length_replicate]; rfl)).2.2
    (by
      intro n hn
      rw [List.eq_of_mem_replicate hn]
      decide)

end SensoryBridge

namespace SensoryBridge

/-! ### AudioRawState and the AudioGuard integrity check

Embedding of SensoryBridge::Audio::AudioRawState
(src/audio_raw_state.h) and of AudioGuard::validateAudioState /
AudioGuard::checkIntegrity (src/audio_guard.h, lines 110-175).  The
class fields become a structure; its mutating public operations become
an operation type folded over the state.  getHistoryFrame's index
computation follows the C integer-promotion semantics of
`(waveform_history_index_ + 4 - frame_offset) % 4` on uint8 operands:
the operands are promoted to int, the subtraction can go negative, `%`
is the C truncated remainder, and the result is converted back to the
uint8 idx. -/

/-- GUARD_MAGIC = 0xABCD1234 (src/audio_raw_state.h line 51). -/
def GUARD_MAGIC : ℕ := 0xABCD1234

/-- The AudioRawState fields (src/audio_raw_state.h lines 32-54). -/
structure AudioRawState where
  samples_raw : List ℤ
  waveform_history : List (List ℤ)
  waveform_history_index : ℕ
  dc_offset_sum : ℤ
  guard_pre : ℕ
  guard_suffix : ℕ
  deriving Repr, DecidableEq

/-- The constructor (src/audio_raw_state.h lines 60-70): zeroed buffers,
index 0, zero DC accumulator, both guard words set to GUARD_MAGIC. -/
def audio_raw_init : AudioRawState :=
  ⟨List.replicate 1024 0, List.replicate 4 (List.replicate 1024 0), 0, 0,
    GUARD_MAGIC, GUARD_MAGIC⟩

/-- validateState (src/audio_raw_state.h lines 134-142). -/
def validateState (s : AudioRawState) : Bool :=
  if s.guard_pre ≠ GUARD_MAGIC ∨ s.guard_suffix ≠ GUARD_MAGIC then false
  else if 4 ≤ s.waveform_history_index then false
  else true

/-- The frame index read by getHistoryFrame (src/audio_raw_state.h lines
100-103), with C uint8/int promotion semantics: uint8 operands promote
to int, so the intermediate can be negative; C's `%` truncates toward
zero (Int.tmod); the result is then converted into the uint8 idx. -/
def getHistoryFrameIndex (s : AudioRawState) (frame_offset : ℕ) : ℕ :=
  (Int.emod
    (Int.tmod
      ((s.waveform_history_index % 256 : ℕ) + 4 - (frame_offset % 256 : ℕ) : ℤ)
      4)
    256).toNat

/-- int32 wrap-around for the dc_offset_sum accumulator. -/
def int32_wrap (x : ℤ) : ℤ := Int.emod (x + 2^31) (2^32) - 2^31

/-- The mutating public operations of AudioRawState:
advanceHistoryIndex (lines 112-114), writes through
getCurrentHistoryFrame()[i] (lines 89-92 and i2s_audio.h line 111),
writes into getRawSamples() (line 79 and i2s_audio.h line 64), and
accumulation through getDCOffsetSum() (line 125 and i2s_audio.h lines
142-146).  The read-only accessors do not change the state. -/
inductive RawOp where
  | advanceHistoryIndex : RawOp
  | writeCurrentFrame (i : ℕ) (v : ℤ) : RawOp
  | writeRawSample (i : ℕ) (v : ℤ) : RawOp
  | accumulateDCOffset (v : ℤ) : RawOp
  deriving Repr, DecidableEq

/-- Effect of one public operation on the AudioRawState fields. -/
def apply_raw_op (s : AudioRawState) (op : RawOp) : AudioRawState :=
  match op with
  | RawOp.advanceHistoryIndex =>
      { s with waveform_history_index := (s.waveform_history_index + 1) % 4 }
  | RawOp.writeCurrentFrame i v =>
      let frame := (s.waveform_history.getD s.waveform_history_index []).set i v
      { s with waveform_history :=
          s.waveform_history.set s.waveform_history_index frame }
  | RawOp.writeRawSample i v =>
      { s with samples_raw := s.samples_raw.set i v }
  | RawOp.accumulateDCOffset v =>
      { s with dc_offset_sum := int32_wrap (s.dc_offset_sum + v) }

theorem apply_raw_op_fields (s : AudioRawState) (op : RawOp) :
    (apply_raw_op s op).waveform_history_index = s.waveform_history_index ∨
      (apply_raw_op s op).waveform_history_index =
        (s.waveform_history_index + 1) % 4 := by
  cases op <;> first | exact Or.inl rfl | exact Or.inr rfl

theorem apply_raw_op_guards (s : AudioRawState) (op : RawOp) :
    (apply_raw_op s op).guard_pre = s.guard_pre ∧
      (apply_raw_op s op).guard_suffix = s.guard_suffix := by
  cases op <;> exact ⟨rfl, rfl⟩

theorem validateState_of_fields (s : AudioRawState)
    (h1 : s.guard_pre = GUARD_MAGIC) (h2 : s.guard_suffix = GUARD_MAGIC)
    (h3 : s.waveform_history_index < 4) : validateState s = true := by
  unfold validateState
  rw [if_neg (by push_neg; exact ⟨h1, h2⟩), if_neg (by omega)]

/-- C10 counterexample: in the freshly constructed state (history index
0, guards intact, validateState true) a getHistoryFrame access with
frame_offset 6 computes idx = 254 under the C promotion semantics of
`(waveform_history_index_ + 4 - frame_offset) % 4`, which does not
select one of the 4 stored frames. -/
theorem history_frame_access_out_of_range :
    validateState audio_raw_init = true ∧
    getHistoryFrameIndex audio_raw_init 6 = 254 ∧
    ¬ getHistoryFrameIndex audio_raw_init 6 < 4 := by
  refine ⟨rfl, rfl, ?_⟩
  decide

/-- C10 (amended): starting from the AudioRawState constructor, every
sequence of its public operations keeps waveform_history_index strictly
below 4 and leaves both guard words equal to GUARD_MAGIC, so
validateState() returns true; every getCurrentHistoryFrame access (which
indexes by waveform_history_index itself) and every getHistoryFrame
access with frame_offset at most 4 selects one of the 4 stored frames —
but getHistoryFrame offsets larger than index + 4 escape the 4 frames
because the uint8 operands are promoted to int and the truncated C
remainder of a negative value wraps to an idx as large as 255. -/
theorem audio_raw_state_invariant (ops : List RawOp) :
    (ops.foldl apply_raw_op audio_raw_init).waveform_history_index < 4 ∧
    (ops.foldl apply_raw_op audio_raw_init).guard_pre = GUARD_MAGIC ∧
    (ops.foldl apply_raw_op audio_raw_init).guard_suffix = GUARD_MAGIC ∧
    validateState (ops.foldl apply_raw_op audio_raw_init) = true ∧
    (∀ frame_offset : ℕ, frame_offset ≤ 4 →
      getHistoryFrameIndex (ops.foldl apply_raw_op audio_raw_init)
        frame_offset < 4) := by
  have h : ∀ (l : List RawOp) (s : AudioRawState),
      s.waveform_history_index < 4 → s.guard_pre = GUARD_MAGIC →
      s.guard_suffix = GUARD_MAGIC →
      (l.foldl apply_raw_op s).waveform_history_index < 4 ∧
        (l.foldl apply_raw_op s).guard_pre = GUARD_MAGIC ∧
        (l.foldl apply_raw_op s).guard_suffix = GUARD_MAGIC := by
    intro l
    induction l with
    | nil => intro s h1 h2 h3; exact ⟨h1, h2, h3⟩
    | cons op rest ih =>
        intro s h1 h2 h3
        have hg := apply_raw_op_guards s op
        have hidx : (apply_raw_op s op).waveform_history_index < 4 := by
          rcases apply_raw_op_fields s op with he | he
          · rw [he]; exact h1
          · rw [he]; exact Nat.mod_lt _ (by norm_num)
        exact ih (apply_raw_op s op) hidx (hg.1.trans h2) (hg.2.trans h3)
  have h0 : audio_raw_init.waveform_history_index < 4 := by norm_num [audio_raw_init]
  obtain ⟨hi, hp, hs⟩ := h ops audio_raw_init h0 rfl rfl
  refine ⟨hi, hp, hs, validateState_of_fields _ hp hs hi, ?_⟩
  intro frame_offset hoff
  unfold getHistoryFrameIndex
  set s := ops.foldl apply_raw_op audio_raw_init with hsdef
  have hidx256 : s.waveform_history_index % 256 = s.waveform_history_index :=
    Nat.mod_eq_of_lt (by omega)
  have hoff256 : frame_offset % 256 = frame_offset :=
    Nat.mod_eq_of_lt (by omega)
  rw [hidx256, hoff256]
  have hnn : (0:ℤ) ≤ (s.waveform_history_index : ℤ) + 4 - frame_offset := by
    have : (frame_offset : ℤ) ≤ 4 := by exact_mod_cast hoff
    omega
  have htmod : Int.tmod ((s.waveform_history_index : ℤ) + 4 - frame_offset) 4 =
      Int.emod ((s.waveform_history_index : ℤ) + 4 - frame_offset) 4 :=
    Int.tmod_eq_emod hnn (by norm_num)
  rw [htmod]
  show ((((s.waveform_history_index : ℤ) + 4 - (frame_offset : ℤ)) % 4)
      % 256).toNat < 4
  omega

/-- Concrete instance of the amended C10 theorem: after one
advanceHistoryIndex, the getHistoryFrame access with offset 3 stays
within the 4 stored frames. -/
theorem audio_raw_state_invariant_witness :
    getHistoryFrameIndex
      ([RawOp.advanceHistoryIndex].foldl apply_raw_op audio_raw_init) 3 < 4 :=
  (audio_raw_state_invariant [RawOp.advanceHistoryIndex]).2.2.2.2 3 (by norm_num)

/-- The configuration fields validated by AudioGuard::validateAudioState. -/
structure GuardConfig where
  sensitivity : ℚ
  sample_rate : ℕ
  led_count : ℕ
  deriving Repr, DecidableEq

/-- CONFIG as forced by init_fs (bridge_fs.h lines 257-279) and
globals.h: SENSITIVITY 0.4, SAMPLE_RATE 32000, LED_COUNT 160. -/
def default_guard_config : GuardConfig := ⟨2/5, 32000, 160⟩

/-- AudioGuard::validateAudioState (src/audio_guard.h lines 130-175):
computes a corruption flag from the configuration range checks and
AudioRawState::validateState, but — per its own DO-NOT-AUTOCORRECT
comments — mutates nothing: the configuration and the raw state are
returned exactly as they came in, and no corruption counter exists. -/
def validate_audio_state (cfg : GuardConfig) (raw : AudioRawState) :
    Bool × GuardConfig × AudioRawState :=
  ((decide (cfg.sensitivity < 1/1000) || decide (cfg.sensitivity > 10)) ||
    (!(is_valid_sample_rate cfg.sample_rate)) ||
    (decide (cfg.led_count > 1000) || decide (cfg.led_count = 0)) ||
    (!(validateState raw)),
   cfg, raw)

/-- AudioGuard::checkIntegrity (src/audio_guard.h lines 110-127):
returns without checking when fewer than 1000 ms have elapsed since
last_guard_check; otherwise runs validateAudioState.  Result: this
call's corruption flag, the new last_guard_check, and the untouched
configuration and raw state. -/
def check_integrity (last_guard_check t_now : ℕ) (cfg : GuardConfig)
    (raw : AudioRawState) : Bool × ℕ × GuardConfig × AudioRawState :=
  if elapsed32 t_now last_guard_check < 1000 then
    (false, last_guard_check, cfg, raw)
  else
    ((validate_audio_state cfg raw).1, t_now, cfg, raw)

/-- A corrupted raw state: a buffer overrun clobbered the guard word in
front of the buffers and filled samples_raw with garbage. -/
def corrupted_raw_example : AudioRawState :=
  ⟨List.replicate 1024 7, List.replicate 4 (List.replicate 1024 0), 0, 0,
    0, GUARD_MAGIC⟩

/-- C9 counterexample: validateAudioState detects the corruption of
corrupted_raw_example (guard-word mismatch reported by validateState),
yet the affected buffer is NOT reinitialized to a safe zero state — the
returned raw state is exactly the corrupted input, whose samples_raw
still differs from the zeroed buffer — and the model faithfully has no
event counter to increment because the code keeps none. -/
theorem corruption_detected_without_reinit :
    (validate_audio_state default_guard_config corrupted_raw_example).1 = true ∧
    (validate_audio_state default_guard_config corrupted_raw_example).2.2 =
      corrupted_raw_example ∧
    corrupted_raw_example.samples_raw ≠ List.replicate 1024 0 := by
  have hv : validateState corrupted_raw_example = false := by decide
  refine ⟨?_, rfl, ?_⟩
  · unfold validate_audio_state
    rw [hv]
    simp
  · intro h
    have h2 := congrArg (fun l => l[0]?) h
    dsimp only [corrupted_raw_example] at h2
    rw [List.getElem?_replicate, if_pos (by decide),
      List.getElem?_replicate, if_pos (by decide)] at h2
    exact absurd h2 (by decide)

/-- C9 (amended): when the periodic integrity check runs and detects
corruption — the flag is true exactly when a configuration field is out
of range or AudioRawState::validateState reports a guard-word or index
mismatch — the event is only reported, not recovered from: the
configuration and the corrupted buffer are passed through completely
unchanged (no reinitialization to a zero state) and no corruption
counter is maintained. -/
theorem check_integrity_detects_but_preserves (last t : ℕ)
    (cfg : GuardConfig) (raw : AudioRawState) :
    (validate_audio_state cfg raw).2.1 = cfg ∧
    (validate_audio_state cfg raw).2.2 = raw ∧
    ((validate_audio_state cfg raw).1 = true ↔
      (cfg.sensitivity < 1/1000 ∨ cfg.sensitivity > 10 ∨
        is_valid_sample_rate cfg.sample_rate = false ∨
        cfg.led_count > 1000 ∨ cfg.led_count = 0 ∨
        validateState raw = false)) ∧
    (check_integrity last t cfg raw).2.2.1 = cfg ∧
    (check_integrity last t cfg raw).2.2.2 = raw := by
  refine ⟨rfl, rfl, ?_, ?_, ?_⟩
  · unfold validate_audio_state
    simp only [Bool.or_eq_true, decide_eq_true_eq, Bool.not_eq_eq_eq_not,
      Bool.not_true, Bool.not_eq_true]
    tauto
  · unfold check_integrity
    split_ifs <;> rfl
  · unfold check_integrity
    split_ifs <;> rfl

/-- Concrete instance of the amended C9 theorem: the corrupted example
state passes through checkIntegrity unchanged. -/
theorem check_integrity_preserves_witness :
    (check_integrity 0 5000 default_guard_config corrupted_raw_example).2.2.2 =
      corrupted_raw_example :=
  (check_integrity_detects_but_preserves 0 5000 default_guard_config
    corrupted_raw_example).2.2.2.2

end SensoryBridge
